import Mathlib

/-!
Shallow embedding of the crawl engine of `crawler/crawler.go` (package
`crawler` of the ipfs-search repository).

External collaborators (the ElasticSearch indexer, the RabbitMQ task
queues, the IPFS gateway shell and the tika extractor) are modelled as
oracles: each call site of the crawl engine reads the collaborator's
response from an oracle field, and every call the engine performs is
recorded, in order, in an effect trace.  The crawl functions

  `updateReferences`, `indexReferences`, `handleError` (classification),
  `CrawlHash`, `CrawlFile`

are translated line by line from the source; the retry loop around the
gateway / extractor calls is modelled by recursion over the list of
successive responses the collaborator would give.
-/

/-- `strings.Contains`: `pat` occurs as a contiguous substring of `s`. -/
def listStartsWith : List Char → List Char → Bool
  | [], _ => true
  | _ :: _, [] => false
  | p :: ps, c :: cs => p == c && listStartsWith ps cs

def listContainsSub (pat : List Char) : List Char → Bool
  | [] => listStartsWith pat []
  | c :: cs => listStartsWith pat (c :: cs) || listContainsSub pat cs

def strContains (s pat : String) : Bool :=
  listContainsSub pat.toList s.toList

/-- Constants of `crawler.go`. -/
def reconnectWait : Nat := 2

def metadataMaxSize : Nat := 50 * 1024 * 1024

/-- `partialSize` in the source: the default chunker block size. -/
def chunkerBlockSize : Nat := 262144

/-- `indexer.Reference`: where an indexed document was reached from. -/
structure Reference where
  name : String
  parentHash : String
deriving DecidableEq, Repr

/-- `crawler.Args`: the payload of a crawl task. -/
structure Args where
  hash : String
  name : String
  size : Nat
  parentHash : String
  parentName : String
deriving DecidableEq, Repr

/-- `shell.UnixLsLink`: one link of a directory listing. -/
structure UnixLsLink where
  hash : String
  name : String
  size : Nat
  linkType : String
deriving DecidableEq, Repr

/-- `shell.UnixLsObject`: the result of the gateway `FileList` call. -/
structure UnixLsObject where
  hash : String
  size : Nat
  objType : String
  links : List UnixLsLink
deriving DecidableEq, Repr

/-- The inner error wrapped by a Go `url.Error`. -/
inductive UrlInner where
  | opError (op : String)
  | errno (code : Nat)
  | otherInner
deriving DecidableEq, Repr

/-- A Go `url.Error` as observed by `handleError`: its `Timeout()` and
`Temporary()` predicates, the wrapped error and the message. -/
structure UrlErr where
  timeoutFlag : Bool
  temporaryFlag : Bool
  inner : UrlInner
  msg : String
deriving DecidableEq, Repr

/-- The error values `handleError` distinguishes: a `*shell.Error`, a
`*url.Error`, or any other Go error. -/
inductive GoError where
  | shellError (msg : String)
  | urlError (u : UrlErr)
  | otherError (msg : String)
deriving DecidableEq, Repr

/-- `err.Error()`: the message of an error. -/
def GoError.msg : GoError → String
  | .shellError m => m
  | .urlError u => u.msg
  | .otherError m => m

/-- `syscall.ECONNREFUSED` on Linux. -/
def ECONNREFUSED : Nat := 111

/-- The three ways `handleError` can leave its caller: `panicAct` (index an
`invalid` document, then panic), `retryAct` (return `(true, nil)`), or
`permanentAct` (return `(false, err)`). -/
inductive HandleAct where
  | panicAct
  | retryAct
  | permanentAct
deriving DecidableEq, Repr

/-- Classification performed by `Crawler.handleError` on a non-nil error:
a `*shell.Error` whose message contains "proto" panics (after indexing an
`invalid` document); a `*url.Error` that timed out is permanent, a
temporary one retries, as do a "dial" op error, a "read" op error and
`ECONNREFUSED`; everything else is permanent. -/
def handleError : GoError → HandleAct
  | .shellError m =>
      if strContains m "proto" then .panicAct else .permanentAct
  | .urlError u =>
      if u.timeoutFlag then .permanentAct
      else if u.temporaryFlag then .retryAct
      else
        match u.inner with
        | .opError op =>
            if op = "dial" then .retryAct
            else if op = "read" then .retryAct
            else .permanentAct
        | .errno code =>
            if code = ECONNREFUSED then .retryAct else .permanentAct
        | .otherInner => .permanentAct
  | .otherError _ => .permanentAct

/-- The tika extractor's JSON response, abstracted to a key/value map. -/
abbrev Metadata : Type := List (String × String)

/-- The property map handed to `Indexer.IndexItem`, with one optional slot
per key the crawler ever sets. -/
structure Props where
  references : Option (List Reference)
  links : Option (List UnixLsLink)
  sizeProp : Option Nat
  errorMsg : Option String
  metadata : Option Metadata
deriving DecidableEq, Repr

/-- Properties `{references}` (the reference-update upsert). -/
def Props.ofRefs (r : List Reference) : Props :=
  ⟨some r, none, none, none, none⟩

/-- Properties `{error}` (the `invalid` poison-pill upsert). -/
def Props.ofError (m : String) : Props :=
  ⟨none, none, none, some m, none⟩

/-- Properties `{links, size, references}` (the directory upsert). -/
def Props.dir (l : List UnixLsLink) (sz : Nat) (r : List Reference) : Props :=
  ⟨some r, some l, some sz, none, none⟩

/-- Metadata plus `{size, references}` (the file upsert). -/
def Props.file (md : Metadata) (sz : Nat) (r : List Reference) : Props :=
  ⟨some r, none, some sz, none, some md⟩

/-- One externally visible call of the crawl engine. -/
inductive Effect where
  | getRefs (hash : String)
  | indexItem (docType : String) (hash : String) (props : Props)
  | gatewayList (path : String)
  | fetchMeta (path : String)
  | publishFile (args : Args)
  | publishHash (args : Args)
  | sleepSec (secs : Nat)
deriving DecidableEq, Repr

/-- How a crawl call returns to the consumer loop. -/
inductive Outcome where
  | ok
  | fail (e : GoError)
  | panicked (e : GoError)
  | exhausted
deriving DecidableEq, Repr

def Outcome.isFail : Outcome → Bool
  | .fail _ => true
  | _ => false

def Outcome.isPanic : Outcome → Bool
  | .panicked _ => true
  | _ => false

/-- `hashURL`. -/
def hashURL (hash : String) : String :=
  "/ipfs/" ++ hash

/-- `updateReferences`: a `none` input models Go's nil slice (initialised to
the empty list); an empty `parentHash` adds nothing; an existing reference
with the same `parentHash` adds nothing; otherwise `{name, parentHash}` is
appended.  The boolean reports whether the list was updated. -/
def updateReferences (references : Option (List Reference))
    (name parentHash : String) : List Reference × Bool :=
  let refs := references.getD []
  if parentHash = "" then
    (refs, false)
  else if refs.any (fun r => r.parentHash == parentHash) then
    (refs, false)
  else
    (refs ++ [⟨name, parentHash⟩], true)

/-- Result of the in-engine retry loop around a collaborator call. -/
inductive FetchOut (α : Type) where
  | got (a : α)
  | failed (e : GoError)
  | panicked (e : GoError)
  | exhausted
deriving Repr

/-- The `tryAgain` loop of `CrawlHash` / `CrawlFile`: perform the call
(effect `attempt`), run `handleError` on the response, sleep
`reconnectWait` seconds and repeat on a retryable error, return the value
or the permanent error otherwise.  A protocol error first indexes an
`invalid` document for `hash` and then panics.  `exhausted` marks the cut
of the modelled response list while the loop would still be retrying. -/
def retryLoop {α : Type} (attempt : Effect) (hash : String) :
    List (Except GoError α) → List Effect × FetchOut α
  | [] => ([], .exhausted)
  | .ok a :: _ => ([attempt], .got a)
  | .error e :: rest =>
      match handleError e with
      | .panicAct =>
          ([attempt, .indexItem "invalid" hash (Props.ofError (GoError.msg e))],
            .panicked e)
      | .permanentAct => ([attempt], .failed e)
      | .retryAct =>
          let r := retryLoop attempt hash rest
          (attempt :: Effect.sleepSec reconnectWait :: r.1, r.2)

/-- `indexReferences`: fetch the current references and stored type from
the indexer (`none` references means no document yet), run
`updateReferences`, and when the document exists and a reference was added
upsert `{references}` under the stored type.  Returns the merged reference
list and the `alreadyIndexed` flag. -/
def indexReferences
    (getRes : Except GoError (Option (List Reference) × String))
    (upsertRes : Except GoError Unit)
    (hash name parentHash : String) :
    List Effect × Except GoError (List Reference × Bool) :=
  match getRes with
  | .error e => ([Effect.getRefs hash], .error e)
  | .ok (refsOpt, itemType) =>
      let alreadyIndexed := refsOpt.isSome
      let p := updateReferences refsOpt name parentHash
      if alreadyIndexed ∧ p.2 then
        match upsertRes with
        | .error e =>
            ([Effect.getRefs hash,
              Effect.indexItem itemType hash (Props.ofRefs p.1)], .error e)
        | .ok _ =>
            ([Effect.getRefs hash,
              Effect.indexItem itemType hash (Props.ofRefs p.1)],
              .ok (p.1, true))
      else
        ([Effect.getRefs hash], .ok (p.1, alreadyIndexed))

/-- The per-link loop of the `Directory` branch of `CrawlHash`.  `errVar`
models the Go `err` variable on entry to the iteration.  A `File` link
publishes to the files queue and aborts on a publish error; a `Directory`
link publishes to the hashes queue but, as in the source, DISCARDS the
publish result (`c.hq.AddTask(args)` without assignment) and instead tests
the stale `err` variable; any other link type is skipped.  `fi` / `hi`
count the publishes consumed from each oracle. -/
def processLinks (dirHash : String)
    (filePub hashPub : Nat → Except GoError Unit)
    (errVar : Option GoError) (fi hi : Nat) :
    List UnixLsLink → List Effect × Option GoError
  | [] => ([], none)
  | link :: rest =>
      let args : Args := ⟨link.hash, link.name, link.size, dirHash, ""⟩
      if link.linkType = "File" then
        match filePub fi with
        | .error e => ([Effect.publishFile args], some e)
        | .ok _ =>
            let r := processLinks dirHash filePub hashPub none (fi + 1) hi rest
            (Effect.publishFile args :: r.1, r.2)
      else if link.linkType = "Directory" then
        let _ := hashPub hi
        match errVar with
        | some e => ([Effect.publishHash args], some e)
        | none =>
            let r := processLinks dirHash filePub hashPub none fi (hi + 1) rest
            (Effect.publishHash args :: r.1, r.2)
      else
        processLinks dirHash filePub hashPub errVar fi hi rest

/-- Responses of the collaborators during one `CrawlHash` call:
`getRefsRes` for `Indexer.GetReferences` (with `none` references meaning
no document), `refsUpsertRes` for the reference-update `IndexItem`,
`gatewayRes` for the successive `FileList` attempts, `filePubRes` /
`hashPubRes` for the successive `AddTask` calls on each queue, and
`dirUpsertRes` for the directory `IndexItem`. -/
structure HashOracle where
  getRefsRes : Except GoError (Option (List Reference) × String)
  refsUpsertRes : Except GoError Unit
  gatewayRes : List (Except GoError UnixLsObject)
  filePubRes : Nat → Except GoError Unit
  hashPubRes : Nat → Except GoError Unit
  dirUpsertRes : Except GoError Unit

/-- `Crawler.CrawlHash`: reference dedup, gateway listing inside the retry
loop, then branch on the listing type: a `File` is republished to the
files queue, a `Directory` publishes every child link and upserts the
directory document `{links, size, references}` unless the partial-block
guard (`size == 262144 && parentHash == ""`) fires, any other type is
skipped. -/
def CrawlHash (o : HashOracle)
    (hash name parentHash parentName : String) : List Effect × Outcome :=
  let r1 := indexReferences o.getRefsRes o.refsUpsertRes hash name parentHash
  match r1.2 with
  | .error e => (r1.1, .fail e)
  | .ok (references, alreadyIndexed) =>
      if alreadyIndexed then (r1.1, .ok)
      else
        let r2 := retryLoop (Effect.gatewayList (hashURL hash)) hash o.gatewayRes
        match r2.2 with
        | .exhausted => (r1.1 ++ r2.1, .exhausted)
        | .panicked e => (r1.1 ++ r2.1, .panicked e)
        | .failed e => (r1.1 ++ r2.1, .fail e)
        | .got list =>
            if list.objType = "File" then
              let args : Args := ⟨hash, name, list.size, parentHash, ""⟩
              match o.filePubRes 0 with
              | .error e => (r1.1 ++ r2.1 ++ [Effect.publishFile args], .fail e)
              | .ok _ => (r1.1 ++ r2.1 ++ [Effect.publishFile args], .ok)
            else if list.objType = "Directory" then
              let r3 := processLinks hash o.filePubRes o.hashPubRes none 0 0 list.links
              match r3.2 with
              | some e => (r1.1 ++ r2.1 ++ r3.1, .fail e)
              | none =>
                  if list.size = chunkerBlockSize ∧ parentHash = "" then
                    (r1.1 ++ r2.1 ++ r3.1, .ok)
                  else
                    match o.dirUpsertRes with
                    | .error e =>
                        (r1.1 ++ r2.1 ++ r3.1 ++
                          [Effect.indexItem "directory" hash
                            (Props.dir list.links list.size references)], .fail e)
                    | .ok _ =>
                        (r1.1 ++ r2.1 ++ r3.1 ++
                          [Effect.indexItem "directory" hash
                            (Props.dir list.links list.size references)], .ok)
            else
              (r1.1 ++ r2.1, .ok)

/-- The message of the oversize rejection of `CrawlFile`. -/
def tooLargeMsg (hash name : String) : String :=
  hash ++ " (" ++ name ++ ") too large, not indexing (for now)"

/-- Responses of the collaborators during one `CrawlFile` call. -/
structure FileOracle where
  getRefsRes : Except GoError (Option (List Reference) × String)
  refsUpsertRes : Except GoError Unit
  tikaRes : List (Except GoError Metadata)
  fileUpsertRes : Except GoError Unit

/-- `Crawler.CrawlFile`: partial-block guard, reference dedup, size gate
(`0` skips the extractor, above `metadataMaxSize` rejects), metadata fetch
inside the retry loop under `/ipfs/<parentHash>/<name>` when both are
non-empty and `/ipfs/<hash>` otherwise, then one upsert of the metadata
with `size` and `references` as type `file`. -/
def CrawlFile (o : FileOracle)
    (hash name parentHash parentName : String) (size : Nat) :
    List Effect × Outcome :=
  if size = chunkerBlockSize ∧ parentHash = "" then ([], .ok)
  else
    let r1 := indexReferences o.getRefsRes o.refsUpsertRes hash name parentHash
    match r1.2 with
    | .error e => (r1.1, .fail e)
    | .ok (references, alreadyIndexed) =>
        if alreadyIndexed then (r1.1, .ok)
        else
          if size > 0 then
            if size > metadataMaxSize then
              (r1.1, .fail (.otherError (tooLargeMsg hash name)))
            else
              let path :=
                if name ≠ "" ∧ parentHash ≠ "" then
                  "/ipfs/" ++ parentHash ++ "/" ++ name
                else "/ipfs/" ++ hash
              let r2 := retryLoop (Effect.fetchMeta path) hash o.tikaRes
              match r2.2 with
              | .exhausted => (r1.1 ++ r2.1, .exhausted)
              | .panicked e => (r1.1 ++ r2.1, .panicked e)
              | .failed e => (r1.1 ++ r2.1, .fail e)
              | .got md =>
                  match o.fileUpsertRes with
                  | .error e =>
                      (r1.1 ++ r2.1 ++
                        [Effect.indexItem "file" hash
                          (Props.file md size references)], .fail e)
                  | .ok _ =>
                      (r1.1 ++ r2.1 ++
                        [Effect.indexItem "file" hash
                          (Props.file md size references)], .ok)
          else
            match o.fileUpsertRes with
            | .error e =>
                (r1.1 ++
                  [Effect.indexItem "file" hash
                    (Props.file [] size references)], .fail e)
            | .ok _ =>
                (r1.1 ++
                  [Effect.indexItem "file" hash
                    (Props.file [] size references)], .ok)

/-- An effect that contacts the gateway or the extractor. -/
def Effect.isExternalCall : Effect → Bool
  | .gatewayList _ => true
  | .fetchMeta _ => true
  | _ => false

/-- An effect that writes a document to the index. -/
def Effect.isIndexItem : Effect → Bool
  | .indexItem _ _ _ => true
  | _ => false

/-- An effect that publishes a task to one of the two queues. -/
def Effect.isPublish : Effect → Bool
  | .publishFile _ => true
  | .publishHash _ => true
  | _ => false

/-- The publish effect the `Directory` branch emits for one link: `File`
links go to the files queue, `Directory` links to the hashes queue, other
link types produce nothing. -/
def linkEffect (dirHash : String) (l : UnixLsLink) : Option Effect :=
  if l.linkType = "File" then
    some (.publishFile ⟨l.hash, l.name, l.size, dirHash, ""⟩)
  else if l.linkType = "Directory" then
    some (.publishHash ⟨l.hash, l.name, l.size, dirHash, ""⟩)
  else none

/-- A link that yields a child task. -/
def isChildLink (l : UnixLsLink) : Bool :=
  l.linkType == "File" || l.linkType == "Directory"

lemma processLinks_ok_effects (dirHash : String)
    (hp : Nat → Except GoError Unit) (fi hi : Nat)
    (links : List UnixLsLink) :
    processLinks dirHash (fun _ => .ok ()) hp none fi hi links
      = (links.filterMap (linkEffect dirHash), none) := by
  induction links generalizing fi hi with
  | nil => simp [processLinks]
  | cons l rest ih =>
      by_cases hf : l.linkType = "File"
      · simp [processLinks, linkEffect, hf, ih]
      · by_cases hd : l.linkType = "Directory"
        · simp [processLinks, linkEffect, hf, hd, ih]
        · simp [processLinks, linkEffect, hf, hd, ih]

lemma filterMap_linkEffect_length (dirHash : String)
    (links : List UnixLsLink) :
    (links.filterMap (linkEffect dirHash)).length
      = (links.filter isChildLink).length := by
  induction links with
  | nil => simp
  | cons l rest ih =>
      by_cases hf : l.linkType = "File"
      · simp [linkEffect, isChildLink, hf, ih]
      · by_cases hd : l.linkType = "Directory"
        · simp [linkEffect, isChildLink, hf, hd, ih]
        · simp [linkEffect, isChildLink, hf, hd, ih]

lemma indexReferences_no_external
    (g : Except GoError (Option (List Reference) × String))
    (ur : Except GoError Unit) (h n p : String) :
    ∀ e ∈ (indexReferences g ur h n p).1, e.isExternalCall = false := by
  match g with
  | .error er => simp [indexReferences, Effect.isExternalCall]
  | .ok (refsOpt, t) =>
      simp only [indexReferences]
      split
      · match ur with
        | .error er => simp [Effect.isExternalCall]
        | .ok u => simp [Effect.isExternalCall]
      · simp [Effect.isExternalCall]

/-- C9: `updateReferences` only ever appends; its output extends its input. -/
theorem C9_updateReferences_monotone (refs : Option (List Reference))
    (name parentHash : String) :
    ∃ tail, (updateReferences refs name parentHash).1 = refs.getD [] ++ tail := by
  by_cases h1 : parentHash = ""
  · exact ⟨[], by simp [updateReferences, h1]⟩
  · by_cases h2 :
      ((refs.getD []).any (fun r => r.parentHash == parentHash)) = true
    · exact ⟨[], by simp [updateReferences, h1, h2]⟩
    · exact ⟨[⟨name, parentHash⟩], by simp [updateReferences, h1, h2]⟩

def protoMsg : String := "proto: field out of range"

/-- Oracle for a root hash task whose only gateway response is a
`*shell.Error` containing "proto". -/
def oracleProto : HashOracle :=
  ⟨.ok (none, ""), .ok (), [.error (.shellError protoMsg)],
    fun _ => .ok (), fun _ => .ok (), .ok ()⟩

/-- C1, counterexample: on a gateway protocol error the engine upserts the
`invalid` document but then PANICS — the task does not return an error to
its caller, the process crashes. -/
theorem C1_counterexample :
    CrawlHash oracleProto "QmProtoFail" "" "" ""
      = ([Effect.getRefs "QmProtoFail",
          Effect.gatewayList "/ipfs/QmProtoFail",
          Effect.indexItem "invalid" "QmProtoFail" (Props.ofError protoMsg)],
          Outcome.panicked (GoError.shellError protoMsg))
    ∧ (CrawlHash oracleProto "QmProtoFail" "" "" "").2.isFail = false
    ∧ (CrawlHash oracleProto "QmProtoFail" "" "" "").2.isPanic = true := by
  refine ⟨rfl, rfl, rfl⟩

/-- C1, amended: for every hash task that is not yet indexed, a gateway
protocol error makes the engine upsert `{type: invalid, error: message}`
for the hash and then panic, crashing the process instead of returning a
permanent error. -/
theorem C1_protocol_error_panics (o : HashOracle)
    (hash name parentHash parentName t msg : String)
    (hnotIndexed : o.getRefsRes = .ok (none, t))
    (hgw : o.gatewayRes = [.error (.shellError msg)])
    (hproto : strContains msg "proto" = true) :
    (CrawlHash o hash name parentHash parentName).1
      = [Effect.getRefs hash, Effect.gatewayList (hashURL hash),
         Effect.indexItem "invalid" hash (Props.ofError msg)]
    ∧ (CrawlHash o hash name parentHash parentName).2
      = Outcome.panicked (.shellError msg) := by
  simp [CrawlHash, indexReferences, updateReferences, retryLoop,
    handleError, hnotIndexed, hgw, hproto, GoError.msg]

theorem C1_protocol_error_panics_witness :
    (CrawlHash oracleProto "Qm1" "n" "QmParent" "").2
      = Outcome.panicked (.shellError protoMsg) :=
  (C1_protocol_error_panics oracleProto "Qm1" "n" "QmParent" "" "" protoMsg
    rfl rfl (by decide)).2

def pubFailErr : GoError := .otherError "broker publish failed"

/-- Oracle: directory listing with one `Directory` child; every publish to
the hashes queue fails. -/
def oracleHashPubFail : HashOracle :=
  ⟨.ok (none, ""), .ok (),
    [.ok ⟨"Qd", 4096, "Directory", [⟨"Qc", "sub", 100, "Directory"⟩]⟩],
    fun _ => .ok (), fun _ => .error pubFailErr, .ok ()⟩

/-- Oracle: directory listing with one `File` child; every publish to the
files queue fails. -/
def oracleFilePubFail : HashOracle :=
  ⟨.ok (none, ""), .ok (),
    [.ok ⟨"Qd", 4096, "Directory", [⟨"Qc", "a", 100, "File"⟩]⟩],
    fun _ => .error pubFailErr, fun _ => .ok (), .ok ()⟩

/-- C2: the source means to abort on any child-publish failure and does so
for the files queue, but `c.hq.AddTask(args)` discards its error and the
following `if err != nil` tests a stale variable, so a failed publish to
the hashes queue is silently ignored: the crawl still returns success (the
task would be acked), while an identical failure on the files queue
returns the error. -/
theorem C2_hash_publish_error_ignored :
    (CrawlHash oracleHashPubFail "Qd" "" "" "").2 = Outcome.ok
    ∧ Effect.publishHash ⟨"Qc", "sub", 100, "Qd", ""⟩
        ∈ (CrawlHash oracleHashPubFail "Qd" "" "" "").1
    ∧ (CrawlHash oracleFilePubFail "Qd" "" "" "").2 = Outcome.fail pubFailErr := by
  refine ⟨rfl, ?_, rfl⟩
  decide

/-- C10: a hash task that is not yet indexed and whose listing has a type
other than `File` or `Directory` is acked: the crawl returns success, and
its whole trace is the dedup lookup and the gateway call — no index write
and no published task. -/
theorem C10_other_type_acked
    (t lh T : String) (sz : Nat) (links : List UnixLsLink)
    (ur du : Except GoError Unit) (fp hp : Nat → Except GoError Unit)
    (hash name parentHash parentName : String)
    (hT1 : T ≠ "File") (hT2 : T ≠ "Directory") :
    CrawlHash ⟨.ok (none, t), ur, [.ok ⟨lh, sz, T, links⟩], fp, hp, du⟩
        hash name parentHash parentName
      = ([Effect.getRefs hash, Effect.gatewayList (hashURL hash)], .ok) := by
  simp [CrawlHash, indexReferences, updateReferences, retryLoop, hT1, hT2]

theorem C10_other_type_acked_witness :
    CrawlHash ⟨.ok (none, ""), .ok (),
        [.ok ⟨"Qr", 12, "Raw", []⟩], fun _ => .ok (), fun _ => .ok (), .ok ()⟩
        "Qr" "" "" ""
      = ([Effect.getRefs "Qr", Effect.gatewayList (hashURL "Qr")], .ok) :=
  C10_other_type_acked "" "Qr" "Raw" 12 [] (.ok ()) (.ok ())
    (fun _ => .ok ()) (fun _ => .ok ()) "Qr" "" "" ""
    (by decide) (by decide)

lemma CrawlHash_found_trace (refs : List Reference) (t : String)
    (ur du : Except GoError Unit) (gw : List (Except GoError UnixLsObject))
    (fp hp : Nat → Except GoError Unit)
    (hash name parentHash parentName : String) :
    (CrawlHash ⟨.ok (some refs, t), ur, gw, fp, hp, du⟩
        hash name parentHash parentName).1
      = (indexReferences (.ok (some refs, t)) ur hash name parentHash).1 := by
  cases hup : (updateReferences (some refs) name parentHash).2
  · simp [CrawlHash, indexReferences, hup]
  · cases ur with
    | error e => simp [CrawlHash, indexReferences, hup]
    | ok u => simp [CrawlHash, indexReferences, hup]

lemma CrawlFile_found_trace (refs : List Reference) (t : String)
    (ur fu : Except GoError Unit) (tika : List (Except GoError Metadata))
    (hash name parentHash parentName : String) (size : Nat) :
    (CrawlFile ⟨.ok (some refs, t), ur, tika, fu⟩
        hash name parentHash parentName size).1 = []
    ∨ (CrawlFile ⟨.ok (some refs, t), ur, tika, fu⟩
        hash name parentHash parentName size).1
      = (indexReferences (.ok (some refs, t)) ur hash name parentHash).1 := by
  by_cases hg : size = chunkerBlockSize ∧ parentHash = ""
  · left
    simp [CrawlFile, hg]
  · right
    cases hup : (updateReferences (some refs) name parentHash).2
    · simp [CrawlFile, indexReferences, hg, hup]
    · cases ur with
      | error e => simp [CrawlFile, indexReferences, hg, hup]
      | ok u => simp [CrawlFile, indexReferences, hg, hup]

/-- C3: once a document exists for the hash, a re-delivered task performs
no gateway and no extractor call: `CrawlHash`'s trace is exactly the trace
of the reference-deduplication step, and every effect of either crawl
function is internal (index lookup / upsert only). -/
theorem C3_redelivery_no_external_calls (oh : HashOracle) (of : FileOracle)
    (hash name parentHash parentName : String) (size : Nat)
    (refsH refsF : List Reference) (tH tF : String)
    (h1 : oh.getRefsRes = .ok (some refsH, tH))
    (h2 : of.getRefsRes = .ok (some refsF, tF)) :
    (CrawlHash oh hash name parentHash parentName).1
      = (indexReferences oh.getRefsRes oh.refsUpsertRes hash name parentHash).1
    ∧ (∀ e ∈ (CrawlHash oh hash name parentHash parentName).1,
        e.isExternalCall = false)
    ∧ (∀ e ∈ (CrawlFile of hash name parentHash parentName size).1,
        e.isExternalCall = false) := by
  obtain ⟨g, ur, gw, fp, hp, du⟩ := oh
  obtain ⟨gf, urf, tika, fu⟩ := of
  simp only at h1 h2
  subst h1
  subst h2
  refine ⟨CrawlHash_found_trace refsH tH ur du gw fp hp hash name parentHash parentName,
    ?_, ?_⟩
  · rw [CrawlHash_found_trace refsH tH ur du gw fp hp hash name parentHash parentName]
    exact indexReferences_no_external _ ur hash name parentHash
  · rcases CrawlFile_found_trace refsF tF urf fu tika
        hash name parentHash parentName size with h | h
    · rw [h]
      intro e he
      simp at he
    · rw [h]
      exact indexReferences_no_external _ urf hash name parentHash

def oracleFoundH : HashOracle :=
  ⟨.ok (some [⟨"a", "Qd"⟩], "file"), .ok (), [],
    fun _ => .ok (), fun _ => .ok (), .ok ()⟩

def oracleFoundF : FileOracle :=
  ⟨.ok (some [⟨"a", "Qd"⟩], "file"), .ok (), [], .ok ()⟩

theorem C3_redelivery_no_external_calls_witness :
    (CrawlHash oracleFoundH "Qf1" "c" "Qe" "").1
      = (indexReferences oracleFoundH.getRefsRes oracleFoundH.refsUpsertRes
          "Qf1" "c" "Qe").1 :=
  (C3_redelivery_no_external_calls oracleFoundH oracleFoundF "Qf1" "c" "Qe" ""
    10 [⟨"a", "Qd"⟩] [⟨"a", "Qd"⟩] "file" "file" rfl rfl).1

/-- C6: with an existing document and a non-empty `parent_hash`, the dedup
step reports `already_indexed` without an upsert when some stored
reference already carries that `parent_hash`, and otherwise appends
`{name, parent_hash}`, upserts the stored type with the extended list, and
still reports `already_indexed`. -/
theorem C6_reference_dedup (refs : List Reference)
    (t hash name parentHash : String) (hp : parentHash ≠ "") :
    (refs.any (fun r => r.parentHash == parentHash) = true →
      indexReferences (.ok (some refs, t)) (.ok ()) hash name parentHash
        = ([Effect.getRefs hash], .ok (refs, true)))
    ∧ (refs.any (fun r => r.parentHash == parentHash) = false →
      indexReferences (.ok (some refs, t)) (.ok ()) hash name parentHash
        = ([Effect.getRefs hash,
            Effect.indexItem t hash
              (Props.ofRefs (refs ++ [⟨name, parentHash⟩]))],
            .ok (refs ++ [⟨name, parentHash⟩], true))) := by
  constructor
  · intro h
    simp [indexReferences, updateReferences, hp, h]
  · intro h
    simp [indexReferences, updateReferences, hp, h]

theorem C6_reference_dedup_witness :
    indexReferences (.ok (some [⟨"a", "Qd"⟩], "file")) (.ok ()) "Qf1" "c" "Qe"
      = ([Effect.getRefs "Qf1",
          Effect.indexItem "file" "Qf1"
            (Props.ofRefs [⟨"a", "Qd"⟩, ⟨"c", "Qe"⟩])],
          .ok ([⟨"a", "Qd"⟩, ⟨"c", "Qe"⟩], true)) :=
  (C6_reference_dedup [⟨"a", "Qd"⟩] "file" "Qf1" "c" "Qe" (by decide)).2
    (by decide)

lemma filter_isPublish_linkEffect (dirHash : String)
    (links : List UnixLsLink) :
    (links.filterMap (linkEffect dirHash)).filter Effect.isPublish
      = links.filterMap (linkEffect dirHash) := by
  induction links with
  | nil => simp
  | cons l rest ih =>
      by_cases hf : l.linkType = "File"
      · simp [linkEffect, hf, Effect.isPublish, ih]
      · by_cases hd : l.linkType = "Directory"
        · simp [linkEffect, hf, hd, Effect.isPublish, ih]
        · simp [linkEffect, hf, hd, ih]

/-- C5: the size gate of `CrawlFile` is strict.  A file of exactly
`metadataMaxSize` = 50 MiB is fetched from the extractor and indexed,
while any size strictly above the cap is rejected with a permanent error
after the dedup lookup, with no document written. -/
theorem C5_size_gate_strict :
    metadataMaxSize = 52428800
    ∧ (∀ (t hash name parentName : String) (ur : Except GoError Unit)
        (md : Metadata),
        CrawlFile ⟨.ok (none, t), ur, [.ok md], .ok ()⟩
            hash name "" parentName metadataMaxSize
          = ([Effect.getRefs hash, Effect.fetchMeta ("/ipfs/" ++ hash),
              Effect.indexItem "file" hash (Props.file md metadataMaxSize [])],
              .ok))
    ∧ (∀ (o : FileOracle) (t hash name parentHash parentName : String)
        (size : Nat),
        o.getRefsRes = .ok (none, t) →
        size > metadataMaxSize →
        CrawlFile o hash name parentHash parentName size
          = ([Effect.getRefs hash],
              .fail (.otherError (tooLargeMsg hash name)))) := by
  refine ⟨rfl, ?_, ?_⟩
  · intro t hash name parentName ur md
    simp [CrawlFile, indexReferences, updateReferences, retryLoop,
      metadataMaxSize, chunkerBlockSize]
  · intro o t hash name parentHash parentName size hget hbig
    obtain ⟨g, ur, tika, fu⟩ := o
    simp only at hget
    subst hget
    have hne : ¬(size = chunkerBlockSize ∧ parentHash = "") := by
      rintro ⟨h1, _⟩
      rw [h1] at hbig
      simp [chunkerBlockSize, metadataMaxSize] at hbig
    have hpos : 0 < size := by
      have : (0 : Nat) < metadataMaxSize := by decide
      omega
    simp [CrawlFile, indexReferences, updateReferences, hne, hbig, hpos]

theorem C5_size_gate_strict_witness :
    CrawlFile ⟨.ok (none, ""), .ok (), [], .ok ()⟩ "Qbig" "v" "" "" 52428801
      = ([Effect.getRefs "Qbig"],
          .fail (.otherError (tooLargeMsg "Qbig" "v"))) :=
  C5_size_gate_strict.2.2 ⟨.ok (none, ""), .ok (), [], .ok ()⟩ "" "Qbig" "v"
    "" "" 52428801 rfl (by decide)

/-- C7: for a directory listing, the published tasks are exactly one per
`File` or `Directory` link, in listing order, with fields
`{hash = link.hash, name = link.name, size = link.size,
parent_hash = the directory's hash}` — `File` links to the files queue,
`Directory` links to the hashes queue, other link types ignored — and
their number equals the number of `File` and `Directory` links. -/
theorem C7_directory_fanout (links : List UnixLsLink)
    (t lh hash name parentHash parentName : String) (sz : Nat)
    (hp : Nat → Except GoError Unit) (ur du : Except GoError Unit) :
    ((CrawlHash ⟨.ok (none, t), ur, [.ok ⟨lh, sz, "Directory", links⟩],
        fun _ => .ok (), hp, du⟩ hash name parentHash parentName).1.filter
          Effect.isPublish)
      = links.filterMap (linkEffect hash)
    ∧ ((CrawlHash ⟨.ok (none, t), ur, [.ok ⟨lh, sz, "Directory", links⟩],
        fun _ => .ok (), hp, du⟩ hash name parentHash parentName).1.filter
          Effect.isPublish).length
      = (links.filter isChildLink).length := by
  have key : ((CrawlHash ⟨.ok (none, t), ur, [.ok ⟨lh, sz, "Directory", links⟩],
      fun _ => .ok (), hp, du⟩ hash name parentHash parentName).1.filter
        Effect.isPublish)
      = links.filterMap (linkEffect hash) := by
    by_cases hg : sz = chunkerBlockSize ∧ parentHash = ""
    · simp [CrawlHash, indexReferences, updateReferences, retryLoop,
        processLinks_ok_effects, hg, Effect.isPublish,
        filter_isPublish_linkEffect]
    · cases du with
      | error e =>
          simp [CrawlHash, indexReferences, updateReferences, retryLoop,
            processLinks_ok_effects, hg, Effect.isPublish,
            filter_isPublish_linkEffect]
      | ok u =>
          simp [CrawlHash, indexReferences, updateReferences, retryLoop,
            processLinks_ok_effects, hg, Effect.isPublish,
            filter_isPublish_linkEffect]
  exact ⟨key, by rw [key, filterMap_linkEffect_length]⟩

/-- C8: error classification and in-engine retry.  A `url.Error` that
timed out is permanent: the retry loop returns the error after the one
attempt, regardless of what later responses would have been.  A temporary
URL error, a "dial" op error, a "read" op error and `ECONNREFUSED` all
classify as retryable, and on a retryable error the loop sleeps
`reconnectWait` = 2 seconds and re-issues the same call within the same
task, continuing with the next response. -/
theorem C8_retry_policy :
    reconnectWait = 2
    ∧ (∀ u : UrlErr, u.timeoutFlag = true →
        handleError (.urlError u) = HandleAct.permanentAct)
    ∧ (∀ (α : Type) (u : UrlErr) (att : Effect) (hash : String)
        (rest : List (Except GoError α)),
        u.timeoutFlag = true →
        retryLoop att hash (.error (.urlError u) :: rest)
          = ([att], .failed (.urlError u)))
    ∧ (∀ u : UrlErr, u.timeoutFlag = false → u.temporaryFlag = true →
        handleError (.urlError u) = HandleAct.retryAct)
    ∧ (∀ m : String,
        handleError (.urlError ⟨false, false, .opError "dial", m⟩)
          = HandleAct.retryAct)
    ∧ (∀ m : String,
        handleError (.urlError ⟨false, false, .opError "read", m⟩)
          = HandleAct.retryAct)
    ∧ (∀ m : String,
        handleError (.urlError ⟨false, false, .errno ECONNREFUSED, m⟩)
          = HandleAct.retryAct)
    ∧ (∀ (α : Type) (e : GoError) (att : Effect) (hash : String)
        (rest : List (Except GoError α)),
        handleError e = HandleAct.retryAct →
        retryLoop att hash (.error e :: rest)
          = (att :: Effect.sleepSec reconnectWait :: (retryLoop att hash rest).1,
              (retryLoop att hash rest).2)) := by
  refine ⟨rfl, ?_, ?_, ?_, ?_, ?_, ?_, ?_⟩
  · intro u h
    simp [handleError, h]
  · intro α u att hash rest h
    simp [retryLoop, handleError, h]
  · intro u h1 h2
    simp [handleError, h1, h2]
  · intro m
    simp [handleError]
  · intro m
    simp [handleError]
  · intro m
    simp [handleError]
  · intro α e att hash rest h
    simp [retryLoop, h]

theorem C8_retry_policy_witness :
    retryLoop (Effect.gatewayList "/ipfs/Qa") "Qa"
        ([.error (.urlError ⟨false, false, .errno 111, "connection refused"⟩),
          .ok ⟨"Qa", 7, "File", []⟩] : List (Except GoError UnixLsObject))
      = ([Effect.gatewayList "/ipfs/Qa", Effect.sleepSec reconnectWait,
          Effect.gatewayList "/ipfs/Qa"],
          .got ⟨"Qa", 7, "File", []⟩) := by
  have h := C8_retry_policy.2.2.2.2.2.2.2 UnixLsObject
    (.urlError ⟨false, false, .errno 111, "connection refused"⟩)
    (Effect.gatewayList "/ipfs/Qa") "Qa"
    ([.ok ⟨"Qa", 7, "File", []⟩] : List (Except GoError UnixLsObject))
    (by decide)
  rw [h]
  rfl

lemma filter_isIndexItem_linkEffect (dirHash : String)
    (links : List UnixLsLink) :
    (links.filterMap (linkEffect dirHash)).filter Effect.isIndexItem = [] := by
  induction links with
  | nil => simp
  | cons l rest ih =>
      by_cases hf : l.linkType = "File"
      · simp [linkEffect, hf, Effect.isIndexItem, ih]
      · by_cases hd : l.linkType = "Directory"
        · simp [linkEffect, hf, hd, Effect.isIndexItem, ih]
        · simp [linkEffect, hf, hd, ih]

/-- C4: the partial-block guard.  A file task of size 262144 with an empty
`parent_hash` does nothing at all; a directory listing of size 262144
under an empty `parent_hash` still publishes every child task but writes
no document (the trace is exactly dedup lookup, gateway call and the
publishes); and with a non-empty `parent_hash` a size of 262144 is
processed normally in both paths, the document being written. -/
theorem C4_partial_block_guard :
    (∀ (o : FileOracle) (hash name parentName : String),
      CrawlFile o hash name "" parentName chunkerBlockSize = ([], .ok))
    ∧ (∀ (t lh hash name parentName : String) (ur du : Except GoError Unit)
        (hp : Nat → Except GoError Unit) (links : List UnixLsLink),
      CrawlHash ⟨.ok (none, t), ur,
          [.ok ⟨lh, chunkerBlockSize, "Directory", links⟩],
          fun _ => .ok (), hp, du⟩ hash name "" parentName
        = ([Effect.getRefs hash, Effect.gatewayList (hashURL hash)]
            ++ links.filterMap (linkEffect hash), .ok)
      ∧ (([Effect.getRefs hash, Effect.gatewayList (hashURL hash)]
            ++ links.filterMap (linkEffect hash)).filter Effect.isIndexItem)
          = [])
    ∧ (∀ (t hash name parentHash parentName : String)
        (ur : Except GoError Unit) (md : Metadata),
      parentHash ≠ "" →
      (CrawlFile ⟨.ok (none, t), ur, [.ok md], .ok ()⟩
          hash name parentHash parentName chunkerBlockSize).2 = .ok
      ∧ Effect.indexItem "file" hash
            (Props.file md chunkerBlockSize [⟨name, parentHash⟩])
          ∈ (CrawlFile ⟨.ok (none, t), ur, [.ok md], .ok ()⟩
              hash name parentHash parentName chunkerBlockSize).1)
    ∧ (∀ (t lh hash name parentHash parentName : String)
        (ur : Except GoError Unit) (hp : Nat → Except GoError Unit)
        (links : List UnixLsLink),
      parentHash ≠ "" →
      (CrawlHash ⟨.ok (none, t), ur,
          [.ok ⟨lh, chunkerBlockSize, "Directory", links⟩],
          fun _ => .ok (), hp, .ok ()⟩ hash name parentHash parentName).2 = .ok
      ∧ Effect.indexItem "directory" hash
            (Props.dir links chunkerBlockSize [⟨name, parentHash⟩])
          ∈ (CrawlHash ⟨.ok (none, t), ur,
              [.ok ⟨lh, chunkerBlockSize, "Directory", links⟩],
              fun _ => .ok (), hp, .ok ()⟩ hash name parentHash parentName).1) := by
  refine ⟨?_, ?_, ?_, ?_⟩
  · intro o hash name parentName
    simp [CrawlFile]
  · intro t lh hash name parentName ur du hp links
    refine ⟨?_, ?_⟩
    · simp [CrawlHash, indexReferences, updateReferences, retryLoop,
        processLinks_ok_effects]
    · simp [Effect.isIndexItem, filter_isIndexItem_linkEffect]
  · intro t hash name parentHash parentName ur md hpne
    have hg : ¬(chunkerBlockSize = chunkerBlockSize ∧ parentHash = "") := by
      rintro ⟨_, h⟩
      exact hpne h
    by_cases hn : name = ""
    · constructor <;>
        simp [CrawlFile, indexReferences, updateReferences, retryLoop, hg,
          hpne, hn, chunkerBlockSize, metadataMaxSize]
    · constructor <;>
        simp [CrawlFile, indexReferences, updateReferences, retryLoop, hg,
          hpne, hn, chunkerBlockSize, metadataMaxSize]
  · intro t lh hash name parentHash parentName ur hp links hpne
    have hg : ¬(chunkerBlockSize = chunkerBlockSize ∧ parentHash = "") := by
      rintro ⟨_, h⟩
      exact hpne h
    constructor <;>
      simp [CrawlHash, indexReferences, updateReferences, retryLoop,
        processLinks_ok_effects, hg, hpne]

theorem C4_partial_block_guard_witness :
    (CrawlFile ⟨.ok (none, ""), .ok (), [.ok [("title", "T")]], .ok ()⟩
        "Qx" "nm" "QmP" "" chunkerBlockSize).2 = Outcome.ok :=
  (C4_partial_block_guard.2.2.1 "" "Qx" "nm" "QmP" "" (.ok ())
    [("title", "T")] (by decide)).1
